import Mathlib

/-!
Verification of YukarinetteXSOverlayBridge core components.

Shallow embedding of:
- modules/translation_logger.py (TranslationLogger, the message stabilizer)
- modules/yukacone_client.py (YukaconeClient, the session controller and the
  WebSocket reconnect loop)
- modules/media_controller.py (MediaKeyController, the key event router)

Mutable object state is modelled by explicit state passing; wall-clock times
are passed in explicitly (Int for the stabilizer, exact rationals for the
backoff delays); HTTP calls are modelled by an environment oracle giving each
call's success or failure, and the emitted calls are collected in traces.
-/

namespace Bridge

/-! ### translation_logger.py -/

/-- One element of the inbound textList: a dict with optional keys Lang and
Text (`.get` with default ""). -/
structure RawEntry where
  lang : Option String
  text : Option String
deriving DecidableEq

/-- A raw inbound record from the Yukacone WebSocket: a dict with optional
keys MessageID and textList. -/
structure RawData where
  messageId : Option String
  textList : Option (List RawEntry)
deriving DecidableEq

/-- The internal format produced by TranslationLogger._convert_to_internal_format:
keys MsgID, Lang1, Text1, Lang2, Text2 (MsgID always present). -/
structure InternalMsg where
  msgId : String
  lang1 : String
  text1 : String
  lang2 : String
  text2 : String
deriving DecidableEq

/-- The mutable pending-message fields of TranslationLogger:
current_id, last_data, last_update_time. -/
structure LoggerState where
  current_id : Option String
  last_data : Option InternalMsg
  last_update_time : Option Int
deriving DecidableEq

/-- TranslationLogger.__init__ sets current_id = last_data = last_update_time = None. -/
def initLogger : LoggerState := ⟨none, none, none⟩

/-- TranslationLogger._convert_to_internal_format: returns None when
MessageID is missing or textList (missing treated as []) has fewer than two
entries; otherwise builds the internal dict from entries 0 and 1, with ""
defaults for missing Lang/Text. -/
def convert_to_internal_format (data : RawData) : Option InternalMsg :=
  match data.messageId with
  | none => none
  | some msg_id =>
    match data.textList.getD [] with
    | e0 :: e1 :: _ =>
        some { msgId := msg_id
               lang1 := e0.lang.getD ""
               text1 := e0.text.getD ""
               lang2 := e1.lang.getD ""
               text2 := e1.text.getD "" }
    | _ => none

/-- TranslationLogger._flush_locked: if last_data is unset, no-op; otherwise
emit last_data (the log line / on_message_logged record) and reset all three
pending fields to None. The second component is the list of finalized
records emitted (empty or a singleton). -/
def flush_locked (s : LoggerState) : LoggerState × List InternalMsg :=
  match s.last_data with
  | none => (s, [])
  | some d => (⟨none, none, none⟩, [d])

/-- TranslationLogger._add_message_internal at time now: first message starts
the pending state; a different id flushes the pending message first and then
replaces the pending state; the same id replaces last_data and refreshes
last_update_time. -/
def add_message_internal (s : LoggerState) (msg : InternalMsg) (now : Int) :
    LoggerState × List InternalMsg :=
  match s.current_id with
  | none => (⟨some msg.msgId, some msg, some now⟩, [])
  | some cid =>
    if msg.msgId ≠ cid then
      let fl := flush_locked s
      (⟨some msg.msgId, some msg, some now⟩, fl.2)
    else
      (⟨s.current_id, some msg, some now⟩, [])

/-- TranslationLogger.add_yukacone_message: convert, drop the record when the
conversion returns None, otherwise hand it to _add_message_internal. -/
def add_yukacone_message (s : LoggerState) (data : RawData) (now : Int) :
    LoggerState × List InternalMsg :=
  match convert_to_internal_format data with
  | none => (s, [])
  | some msg => add_message_internal s msg now

/-- One iteration of TranslationLogger._periodic_flush_loop at time now:
skip when current_id or last_update_time is None, otherwise flush when
now - last_update_time >= stable_sec. -/
def periodic_check (stable_sec : Int) (s : LoggerState) (now : Int) :
    LoggerState × List InternalMsg :=
  match s.current_id, s.last_update_time with
  | some _, some t => if now - t ≥ stable_sec then flush_locked s else (s, [])
  | _, _ => (s, [])

/-- The operations that touch the stabilizer's pending state: an inbound
record (add_yukacone_message), one periodic stability check, and a forced
flush (flush_now, also performed by stop). -/
inductive LogEvent where
  | ingest (data : RawData) (now : Int)
  | tick (now : Int)
  | force
deriving DecidableEq

/-- Dispatch one stabilizer event. -/
def logStep (stable_sec : Int) (s : LoggerState) : LogEvent → LoggerState × List InternalMsg
  | .ingest d now => add_yukacone_message s d now
  | .tick now => periodic_check stable_sec s now
  | .force => flush_locked s

/-- Run a sequence of stabilizer events, collecting all finalized records. -/
def runLogger (stable_sec : Int) (s : LoggerState) :
    List LogEvent → LoggerState × List InternalMsg
  | [] => (s, [])
  | e :: es =>
      let r := logStep stable_sec s e
      let rest := runLogger stable_sec r.1 es
      (rest.1, r.2 ++ rest.2)

/-- An event is well-formed when, if it is an ingest, its record survives
_convert_to_internal_format (well-formed in the sense of the spec). -/
def wellFormedEvent (e : LogEvent) : Bool :=
  match e with
  | .ingest d _ => (convert_to_internal_format d).isSome
  | _ => true

/-- Every ingest event in the list carries a well-formed record. -/
def ingestsWellFormed (es : List LogEvent) : Bool :=
  es.all wellFormedEvent

/-- Abstract run counter, following the spec's words: it tracks only the id
and last-update time of the current run of consecutive-same-id calls, and
counts a run exactly when it is ended by a call with a different id, by a
timeout flush, or by a force-flush. -/
def specRunStep (stable_sec : Int) (p : Option (String × Int)) :
    LogEvent → Option (String × Int) × Nat
  | .ingest d now =>
      match d.messageId with
      | none => (p, 0)
      | some i =>
        match p with
        | some (cid, _) =>
            if i ≠ cid then (some (i, now), 1) else (some (i, now), 0)
        | none => (some (i, now), 0)
  | .tick now =>
      match p with
      | some (_, t) => if now - t ≥ stable_sec then (none, 1) else (p, 0)
      | none => (p, 0)
  | .force =>
      match p with
      | some _ => (none, 1)
      | none => (p, 0)

/-- Total number of maximal runs ended over an event sequence, per the
abstract counter. -/
def specRunCount (stable_sec : Int) (p : Option (String × Int)) :
    List LogEvent → Nat
  | [] => 0
  | e :: es =>
      let r := specRunStep stable_sec p e
      r.2 + specRunCount stable_sec r.1 es

/-- Coupling relation between the concrete stabilizer state and the abstract
run counter's pending pair: no pending run corresponds exactly to the reset
state, and a pending run (i, t) corresponds to current_id = i,
last_update_time = t with some payload stored. -/
def specRel (s : LoggerState) : Option (String × Int) → Prop
  | none => s = initLogger
  | some (i, t) =>
      s.current_id = some i ∧ s.last_update_time = some t ∧ s.last_data.isSome = true

/-- A concrete event sequence exercising all three ways a run can end:
id switch (a to b), timeout (b at tick 20 with stable window 10), and
force-flush (c). -/
def sampleRaw (i t : String) : RawData :=
  ⟨some i, some [⟨some "ja", some t⟩, ⟨some "en", some t⟩]⟩

/-- Sample event list for the run-count witness. -/
def sampleEvents : List LogEvent :=
  [ .ingest (sampleRaw "a" "x1") 0,
    .ingest (sampleRaw "a" "x2") 1,
    .ingest (sampleRaw "b" "y1") 2,
    .tick 3,
    .tick 20,
    .ingest (sampleRaw "c" "z1") 21,
    .force ]

/-- All-or-nothing invariant on the pending fields: either all three of
current_id, last_data, last_update_time are None, or all three are set. -/
def pending_consistent (s : LoggerState) : Prop :=
  (s.current_id = none ∧ s.last_data = none ∧ s.last_update_time = none) ∨
  (s.current_id ≠ none ∧ s.last_data ≠ none ∧ s.last_update_time ≠ none)

instance (s : LoggerState) : Decidable (pending_consistent s) := by
  unfold pending_consistent; infer_instance

/-! ### yukacone_client.py -/

/-- A translation_param dict: keys slot, language, engine, each optional with
defaults 1, "en-US", "google" applied at use site (.get with default). -/
structure TransParam where
  slot : Option Int
  language : Option String
  engine : Option String
deriving DecidableEq, Inhabited

/-- One entry of translation_profiles: keys name, recognition_language,
translation_param, all optional dict lookups. -/
structure Profile where
  name : Option String
  recognition_language : Option String
  translation_param : Option TransParam
deriving DecidableEq, Inhabited

/-- The HTTP control calls issued through YukaconeClient._call_api, with the
path and the parameters the code passes. -/
inductive ApiCall where
  | setRecognitionParam (language : Option String)
  | setTranslationParam (slot : Int) (language : String) (engine : String)
  | muteOn
  | muteOff
deriving DecidableEq

/-- The mutable session fields of YukaconeClient: current_profile_index,
is_muted, last_recognition_language. -/
structure ClientState where
  current_profile_index : Int
  is_muted : Bool
  last_recognition_language : Option String
deriving DecidableEq

/-- YukaconeClient.__init__: index 0, muted, no recognition language yet. -/
def initClient : ClientState := ⟨0, true, none⟩

/-- Result of one public client operation: the new session state, the boolean
the operation returns, the control calls issued (in order), and how many
times the client's on_status_change observer was invoked. -/
structure OpResult where
  state : ClientState
  ok : Bool
  calls : List ApiCall
  statusEvents : Nat
deriving DecidableEq

/-- YukaconeClient._call_api: performs the HTTP GET and returns True on
success, False on a RequestException — it never raises. The outcome is
supplied by the environment oracle. -/
def call_api (env : ApiCall → Bool) (c : ApiCall) : Bool := env c

/-- YukaconeClient.set_translation_profile: rejects an out-of-range index
returning False; otherwise issues /setRecognitionParam when the profile's
recognition language differs from last_recognition_language (updating
last_recognition_language right after the call, without checking its
result), then issues /setTranslationParam (result also unchecked), sets
current_profile_index, invokes on_status_change once and returns True.
Nothing in the body raises, so the except-branch returning False is dead. -/
def set_translation_profile (env : ApiCall → Bool) (profiles : List Profile)
    (s : ClientState) (index : Int) : OpResult :=
  if index < 0 ∨ index ≥ (profiles.length : Int) then
    { state := s, ok := false, calls := [], statusEvents := 0 }
  else
    let profile := profiles.getD index.toNat default
    let new_recognition_lang := profile.recognition_language
    let step1 : ClientState × List ApiCall :=
      if new_recognition_lang ≠ s.last_recognition_language then
        let c1 := ApiCall.setRecognitionParam new_recognition_lang
        let _ok1 := call_api env c1
        ({ s with last_recognition_language := new_recognition_lang }, [c1])
      else (s, [])
    let trans_param := profile.translation_param.getD default
    let c2 := ApiCall.setTranslationParam (trans_param.slot.getD 1)
        (trans_param.language.getD "en-US") (trans_param.engine.getD "google")
    let _ok2 := call_api env c2
    { state := { step1.1 with current_profile_index := index }
      ok := true
      calls := step1.2 ++ [c2]
      statusEvents := 1 }

/-- YukaconeClient.set_mute: issues /mute-on or /mute-off (result unchecked),
sets is_muted, invokes on_status_change once and returns True. -/
def set_mute (env : ApiCall → Bool) (s : ClientState) (muted : Bool) : OpResult :=
  let c := if muted then ApiCall.muteOn else ApiCall.muteOff
  let _ok := call_api env c
  { state := { s with is_muted := muted }
    ok := true
    calls := [c]
    statusEvents := 1 }

/-- YukaconeClient.next_profile: (current_profile_index + 1) % len(profiles),
delegated to set_translation_profile. -/
def next_profile (env : ApiCall → Bool) (profiles : List Profile)
    (s : ClientState) : OpResult :=
  set_translation_profile env profiles s
    ((s.current_profile_index + 1) % (profiles.length : Int))

/-- YukaconeClient.previous_profile: (current_profile_index - 1) %
len(profiles) with Python modulo (nonnegative for a positive modulus),
delegated to set_translation_profile. -/
def previous_profile (env : ApiCall → Bool) (profiles : List Profile)
    (s : ClientState) : OpResult :=
  set_translation_profile env profiles s
    ((s.current_profile_index - 1) % (profiles.length : Int))

/-- YukaconeClient.toggle_mute: set_mute(not is_muted). -/
def toggle_mute (env : ApiCall → Bool) (s : ClientState) : OpResult :=
  set_mute env s (!s.is_muted)

/-- n successive next_profile calls, threading the session state. -/
def iterate_next (env : ApiCall → Bool) (profiles : List Profile) :
    Nat → ClientState → ClientState
  | 0, s => s
  | n + 1, s => iterate_next env profiles n (next_profile env profiles s).state

/-- YukaconeClient.get_current_profile: the profile at
current_profile_index when in range, else None. -/
def get_current_profile (profiles : List Profile) (s : ClientState) :
    Option Profile :=
  if 0 ≤ s.current_profile_index ∧ s.current_profile_index < (profiles.length : Int) then
    some (profiles.getD s.current_profile_index.toNat default)
  else none

/-- Exponential backoff delay used by the _ws_connect_loop of both clients:
min(reconnect_delay * 2 ** attempts, max_reconnect_delay). -/
def backoff_delay (reconnect_delay max_reconnect_delay : ℚ) (attempts : Nat) : ℚ :=
  min (reconnect_delay * 2 ^ attempts) max_reconnect_delay

/-- YukaconeClient._ws_connect_loop, abstracted to the delays it sleeps.
Each list element is one connection cycle; `true` means _on_ws_open fired
during the cycle (resetting _reconnect_attempts to 0 before the cycle ends),
`false` means the connect attempt failed outright. After every cycle the
loop sleeps backoff_delay(attempts) and then increments attempts. The result
is the list of slept delays, in order. -/
def ws_connect_loop_delays (reconnect_delay max_reconnect_delay : ℚ) :
    Nat → List Bool → List ℚ
  | _, [] => []
  | attempts, opened :: rest =>
      let a := if opened then 0 else attempts
      backoff_delay reconnect_delay max_reconnect_delay a ::
        ws_connect_loop_delays reconnect_delay max_reconnect_delay (a + 1) rest

/-! ### media_controller.py -/

/-- The three media-key events MediaKeyController routes. -/
inductive KeyEvent where
  | play_pause
  | next
  | previous
deriving DecidableEq

/-- Result of handling one key event: the resulting session state, how many
times the controller's own on_status_change observer fired, how many
XSOClient.send_status pushes were attempted, and how many times the client's
on_status_change observer fired along the way. -/
structure KeyResult where
  state : ClientState
  ctrlStatusEvents : Nat
  xsoSends : Nat
  clientStatusEvents : Nat
deriving DecidableEq

/-- MediaKeyController._handle_play_pause: toggle_mute(); on success push the
current profile+mute state to XSO (when a current profile exists) and invoke
the controller's on_status_change once. -/
def handle_play_pause (env : ApiCall → Bool) (profiles : List Profile)
    (s : ClientState) : KeyResult :=
  let r := toggle_mute env s
  if r.ok then
    let xso := if (get_current_profile profiles r.state).isSome then 1 else 0
    ⟨r.state, 1, xso, r.statusEvents⟩
  else
    ⟨r.state, 0, 0, r.statusEvents⟩

/-- MediaKeyController._handle_next: next_profile(); only on success,
set_mute(False) (result unchecked), then the XSO push and one controller
on_status_change invocation. -/
def handle_next (env : ApiCall → Bool) (profiles : List Profile)
    (s : ClientState) : KeyResult :=
  let r := next_profile env profiles s
  if r.ok then
    let r2 := set_mute env r.state false
    let xso := if (get_current_profile profiles r2.state).isSome then 1 else 0
    ⟨r2.state, 1, xso, r.statusEvents + r2.statusEvents⟩
  else
    ⟨r.state, 0, 0, r.statusEvents⟩

/-- MediaKeyController._handle_previous: previous_profile(); only on success,
set_mute(False), then the XSO push and one controller on_status_change
invocation. -/
def handle_previous (env : ApiCall → Bool) (profiles : List Profile)
    (s : ClientState) : KeyResult :=
  let r := previous_profile env profiles s
  if r.ok then
    let r2 := set_mute env r.state false
    let xso := if (get_current_profile profiles r2.state).isSome then 1 else 0
    ⟨r2.state, 1, xso, r.statusEvents + r2.statusEvents⟩
  else
    ⟨r.state, 0, 0, r.statusEvents⟩

/-- MediaKeyController._on_key_press restricted to the three media keys it
handles. -/
def on_key_press (env : ApiCall → Bool) (profiles : List Profile)
    (s : ClientState) : KeyEvent → KeyResult
  | .play_pause => handle_play_pause env profiles s
  | .next => handle_next env profiles s
  | .previous => handle_previous env profiles s

/-- An environment in which every control call fails (the HTTP endpoint is
unreachable: every requests.get raises RequestException, which _call_api
turns into a False return). -/
def envAllFail : ApiCall → Bool := fun _ => false

/-- Sample profile: Japanese speech, English translation. -/
def profJaEn : Profile :=
  ⟨some "JP-EN", some "ja", some ⟨some 1, some "en-US", some "google"⟩⟩

/-- Sample profile: Japanese speech, Chinese translation. -/
def profJaZh : Profile :=
  ⟨some "JP-CN", some "ja", some ⟨some 1, some "zh-CN", some "google"⟩⟩

/-! ### Helper lemmas for the stabilizer -/

/-- _flush_locked yields an all-or-nothing pending state when given one. -/
theorem flush_locked_consistent (s : LoggerState) (h : pending_consistent s) :
    pending_consistent (flush_locked s).1 := by
  unfold flush_locked
  cases hd : s.last_data with
  | none => exact h
  | some d => exact Or.inl ⟨rfl, rfl, rfl⟩

/-- _add_message_internal always leaves all three pending fields set. -/
theorem add_message_internal_consistent (s : LoggerState) (m : InternalMsg)
    (now : Int) : pending_consistent (add_message_internal s m now).1 := by
  unfold add_message_internal
  cases hcid : s.current_id with
  | none => exact Or.inr (by simp)
  | some cid =>
    dsimp only
    split
    · exact Or.inr (by simp)
    · exact Or.inr (by simp)

/-- One periodic stability check preserves the all-or-nothing invariant. -/
theorem periodic_check_consistent (stable_sec : Int) (s : LoggerState)
    (now : Int) (h : pending_consistent s) :
    pending_consistent (periodic_check stable_sec s now).1 := by
  unfold periodic_check
  cases hc : s.current_id with
  | none => exact h
  | some i =>
    cases ht : s.last_update_time with
    | none => exact h
    | some t =>
      dsimp only
      split
      · exact flush_locked_consistent s h
      · exact h

/-- Every stabilizer operation preserves the all-or-nothing invariant. -/
theorem logStep_consistent (stable_sec : Int) (s : LoggerState) (e : LogEvent)
    (h : pending_consistent s) : pending_consistent (logStep stable_sec s e).1 := by
  cases e with
  | ingest d now =>
    show pending_consistent (add_yukacone_message s d now).1
    unfold add_yukacone_message
    cases convert_to_internal_format d with
    | none => exact h
    | some m => exact add_message_internal_consistent s m now
  | tick now => exact periodic_check_consistent stable_sec s now h
  | force => exact flush_locked_consistent s h

/-- Running any event sequence from a consistent state keeps consistency. -/
theorem runLogger_consistent (stable_sec : Int) (es : List LogEvent) :
    ∀ s, pending_consistent s → pending_consistent (runLogger stable_sec s es).1 := by
  induction es with
  | nil => intro s h; exact h
  | cons e es ih =>
    intro s h
    simpa only [runLogger] using ih _ (logStep_consistent stable_sec s e h)

/-! ### Claim theorems -/

/-- Claim C10: the stabilizer's pending-state fields are all-or-nothing:
after construction and after every sequence of operations (ingest of a
well-formed or malformed record, periodic timeout check, force-flush as in
flush_now and stop), either current_id, last_data and last_update_time are
all None, or all three are set. -/
theorem claim_C10_pending_all_or_nothing (stable_sec : Int) (es : List LogEvent) :
    pending_consistent (runLogger stable_sec initLogger es).1 :=
  runLogger_consistent stable_sec es initLogger (Or.inl ⟨rfl, rfl, rfl⟩)

/-- Claim C3: last-write-wins without merging: from a state whose pending id
is a (or with no pending message), three successive ingests for the same id
a emit nothing and leave exactly the third payload stored, and the eventual
flush emits exactly that third payload. -/
theorem claim_C3_last_write_wins (s : LoggerState) (a : String)
    (P1 P2 P3 : InternalMsg) (t1 t2 t3 : Int)
    (hs : s.current_id = none ∨ s.current_id = some a)
    (h1 : P1.msgId = a) (h2 : P2.msgId = a) (h3 : P3.msgId = a) :
    let r1 := add_message_internal s P1 t1
    let r2 := add_message_internal r1.1 P2 t2
    let r3 := add_message_internal r2.1 P3 t3
    r3.1.last_data = some P3 ∧ r1.2 = [] ∧ r2.2 = [] ∧ r3.2 = [] ∧
      (flush_locked r3.1).2 = [P3] ∧ (flush_locked r3.1).1 = initLogger := by
  rcases hs with hs | hs <;>
    simp [add_message_internal, flush_locked, initLogger, hs, h1, h2, h3]

/-- Witness for C3 at concrete payloads. -/
theorem claim_C3_witness :
    let mkP (t : String) : InternalMsg := ⟨"a", "ja", t, "en", t⟩
    let r1 := add_message_internal initLogger (mkP "p1") 0
    let r2 := add_message_internal r1.1 (mkP "p2") 1
    let r3 := add_message_internal r2.1 (mkP "p3") 2
    r3.1.last_data = some (mkP "p3") ∧ r1.2 = [] ∧ r2.2 = [] ∧ r3.2 = [] ∧
      (flush_locked r3.1).2 = [mkP "p3"] ∧ (flush_locked r3.1).1 = initLogger :=
  claim_C3_last_write_wins initLogger "a" ⟨"a", "ja", "p1", "en", "p1"⟩
    ⟨"a", "ja", "p2", "en", "p2"⟩ ⟨"a", "ja", "p3", "en", "p3"⟩ 0 1 2
    (Or.inl rfl) rfl rfl rfl

/-- Claim C4: an ingest whose id b differs from the pending id a first
flushes the pending payload P1 (exactly one finalized record, carrying P1,
is emitted during that call), and afterwards the pending state holds id b
with payload P2 and the new timestamp, not yet flushed. -/
theorem claim_C4_id_switch_flush (s : LoggerState) (a b : String)
    (P1 P2 : InternalMsg) (now : Int)
    (hid : s.current_id = some a) (hdata : s.last_data = some P1)
    (hb : P2.msgId = b) (hne : b ≠ a) :
    add_message_internal s P2 now = (⟨some b, some P2, some now⟩, [P1]) := by
  simp [add_message_internal, flush_locked, hid, hdata, hb, hne]

/-- Witness for C4 at concrete payloads. -/
theorem claim_C4_witness :
    add_message_internal ⟨some "a", some ⟨"a", "ja", "x", "en", "y"⟩, some 0⟩
        ⟨"b", "ja", "u", "en", "v"⟩ 1
      = (⟨some "b", some ⟨"b", "ja", "u", "en", "v"⟩, some 1⟩,
         [⟨"a", "ja", "x", "en", "y"⟩]) :=
  claim_C4_id_switch_flush ⟨some "a", some ⟨"a", "ja", "x", "en", "y"⟩, some 0⟩
    "a" "b" ⟨"a", "ja", "x", "en", "y"⟩ ⟨"b", "ja", "u", "en", "v"⟩ 1
    rfl rfl rfl (by decide)

/-- A record with no MessageID or fewer than two textList entries converts
to None. -/
theorem convert_eq_none_of_malformed (data : RawData)
    (h : data.messageId = none ∨ (data.textList.getD []).length < 2) :
    convert_to_internal_format data = none := by
  unfold convert_to_internal_format
  cases hm : data.messageId with
  | none => rfl
  | some i =>
    rcases h with h | h
    · rw [hm] at h; exact absurd h (by simp)
    · cases hl : data.textList.getD [] with
      | nil => rfl
      | cons e0 rest =>
        cases rest with
        | nil => rfl
        | cons e1 rest2 => rw [hl] at h; simp at h; omega

/-- Claim C6: a malformed inbound record (missing MessageID, or fewer than
two language/text entries) is inert: add_yukacone_message leaves the pending
state untouched and emits no finalized record. -/
theorem claim_C6_malformed_inert (s : LoggerState) (data : RawData) (now : Int)
    (h : data.messageId = none ∨ (data.textList.getD []).length < 2) :
    add_yukacone_message s data now = (s, []) := by
  unfold add_yukacone_message
  rw [convert_eq_none_of_malformed data h]

/-- A successful conversion carries the record's MessageID as its MsgID. -/
theorem convert_messageId (d : RawData) (m : InternalMsg)
    (h : convert_to_internal_format d = some m) : d.messageId = some m.msgId := by
  unfold convert_to_internal_format at h
  cases hm : d.messageId with
  | none => rw [hm] at h; exact absurd h (by simp)
  | some i =>
    rw [hm] at h
    cases hl : d.textList.getD [] with
    | nil => rw [hl] at h; exact absurd h (by simp)
    | cons e0 rest =>
      cases rest with
      | nil => rw [hl] at h; exact absurd h (by simp)
      | cons e1 rest2 =>
        rw [hl] at h
        simp only [Option.some.injEq] at h
        rw [← h]

/-- One stabilizer step preserves the coupling relation with the abstract run
counter, and emits exactly as many finalized records as runs the abstract
counter ends. -/
theorem spec_step_rel (stable_sec : Int) (s : LoggerState)
    (p : Option (String × Int)) (e : LogEvent)
    (hwf : wellFormedEvent e = true) (hrel : specRel s p) :
    specRel (logStep stable_sec s e).1 (specRunStep stable_sec p e).1 ∧
      (logStep stable_sec s e).2.length = (specRunStep stable_sec p e).2 := by
  cases e with
  | ingest d now =>
    simp only [wellFormedEvent, Option.isSome_iff_exists] at hwf
    obtain ⟨m, hm⟩ := hwf
    have hid := convert_messageId d m hm
    cases p with
    | none =>
      have hs : s = initLogger := hrel
      subst hs
      constructor <;>
        simp [logStep, add_yukacone_message, hm, add_message_internal,
          specRunStep, hid, initLogger, specRel]
    | some pt =>
      obtain ⟨cid, t⟩ := pt
      obtain ⟨hc, ht, hd⟩ := hrel
      obtain ⟨d0, hd0⟩ := Option.isSome_iff_exists.mp hd
      by_cases hne : m.msgId = cid
      · constructor <;>
          simp [logStep, add_yukacone_message, hm, add_message_internal,
            specRunStep, hid, hne, flush_locked, hc, hd0, specRel]
      · constructor <;>
          simp [logStep, add_yukacone_message, hm, add_message_internal,
            specRunStep, hid, hne, flush_locked, hc, hd0, specRel]
  | tick now =>
    cases p with
    | none =>
      have hs : s = initLogger := hrel
      subst hs
      exact ⟨rfl, rfl⟩
    | some pt =>
      obtain ⟨cid, t⟩ := pt
      obtain ⟨hc, ht, hd⟩ := hrel
      obtain ⟨d0, hd0⟩ := Option.isSome_iff_exists.mp hd
      by_cases hst : now - t ≥ stable_sec
      · constructor <;>
          simp [logStep, periodic_check, specRunStep, hc, ht, hst,
            flush_locked, hd0, specRel, initLogger]
      · constructor <;>
          simp [logStep, periodic_check, specRunStep, hc, ht, hst,
            specRel, hd]
  | force =>
    cases p with
    | none =>
      have hs : s = initLogger := hrel
      subst hs
      exact ⟨rfl, rfl⟩
    | some pt =>
      obtain ⟨cid, t⟩ := pt
      obtain ⟨hc, ht, hd⟩ := hrel
      obtain ⟨d0, hd0⟩ := Option.isSome_iff_exists.mp hd
      constructor <;>
        simp [logStep, flush_locked, specRunStep, hd0, specRel, initLogger]

/-- Over any well-formed event sequence, the concrete stabilizer emits
exactly as many finalized records as the abstract counter counts runs. -/
theorem runLogger_specRunCount (stable_sec : Int) (es : List LogEvent) :
    ∀ s p, specRel s p → ingestsWellFormed es = true →
      (runLogger stable_sec s es).2.length = specRunCount stable_sec p es := by
  induction es with
  | nil => intro s p _ _; simp [runLogger, specRunCount]
  | cons e es ih =>
    intro s p hrel hwf
    rw [ingestsWellFormed, List.all_cons, Bool.and_eq_true] at hwf
    obtain ⟨hwf1, hwf2⟩ := hwf
    obtain ⟨hrel2, hlen⟩ := spec_step_rel stable_sec s p e hwf1 hrel
    simp only [runLogger, specRunCount, List.length_append]
    rw [hlen, ih _ _ hrel2 hwf2]

/-- Claim C1: exactly-once stabilization: for every finite sequence of
ingest calls with well-formed records, interleaved with periodic timeout
checks and force-flushes, the number of finalized records emitted equals the
number of distinct maximal runs of consecutive-same-id calls, where a run is
ended by a call with a different id, by a timeout flush, or by a
force-flush — never more, never fewer. -/
theorem claim_C1_exactly_once (stable_sec : Int) (es : List LogEvent)
    (h : ingestsWellFormed es = true) :
    (runLogger stable_sec initLogger es).2.length
      = specRunCount stable_sec none es :=
  runLogger_specRunCount stable_sec es initLogger none rfl h

/-- Witness for C1 on an event list exercising an id switch, a timeout flush
and a force-flush: three runs end and exactly three records are emitted. -/
theorem claim_C1_witness :
    ingestsWellFormed sampleEvents = true ∧
    (runLogger 10 initLogger sampleEvents).2.length
        = specRunCount 10 none sampleEvents ∧
    specRunCount 10 none sampleEvents = 3 :=
  ⟨by decide, claim_C1_exactly_once 10 sampleEvents (by decide), by decide⟩

/-- Witness for C6: a record with an id but only one language entry. -/
theorem claim_C6_witness :
    ((RawData.mk (some "x") (some [⟨some "ja", some "hi"⟩])).messageId = none ∨
      ((RawData.mk (some "x") (some [⟨some "ja", some "hi"⟩])).textList.getD []).length < 2) ∧
    add_yukacone_message initLogger
        (RawData.mk (some "x") (some [⟨some "ja", some "hi"⟩])) 5
      = (initLogger, []) :=
  ⟨Or.inr (by decide),
   claim_C6_malformed_inert initLogger
     (RawData.mk (some "x") (some [⟨some "ja", some "hi"⟩])) 5 (Or.inr (by decide))⟩

/-! ### Helper lemmas for the session controller -/

/-- With an in-range index, set_translation_profile reports success, installs
exactly that index, and does not touch is_muted. -/
theorem set_translation_profile_ok (env : ApiCall → Bool) (profiles : List Profile)
    (s : ClientState) (index : Int)
    (h0 : 0 ≤ index) (h1 : index < (profiles.length : Int)) :
    (set_translation_profile env profiles s index).ok = true ∧
    (set_translation_profile env profiles s index).state.current_profile_index = index ∧
    (set_translation_profile env profiles s index).state.is_muted = s.is_muted := by
  have hcond : ¬(index < 0 ∨ index ≥ (profiles.length : Int)) := by omega
  unfold set_translation_profile
  rw [if_neg hcond]
  refine ⟨rfl, rfl, ?_⟩
  dsimp only
  split <;> rfl

/-- next_profile always succeeds on a nonempty profile list and moves the
index to (current + 1) mod N. -/
theorem next_profile_spec (env : ApiCall → Bool) (profiles : List Profile)
    (s : ClientState) (hN : 0 < profiles.length) :
    (next_profile env profiles s).ok = true ∧
    (next_profile env profiles s).state.current_profile_index
      = (s.current_profile_index + 1) % (profiles.length : Int) := by
  have hNZ : ((profiles.length : Int)) ≠ 0 := by
    have : (0 : Int) < (profiles.length : Int) := by exact_mod_cast hN
    omega
  have hpos : (0 : Int) < (profiles.length : Int) := by exact_mod_cast hN
  have h0 := Int.emod_nonneg (s.current_profile_index + 1) hNZ
  have h1 := Int.emod_lt_of_pos (s.current_profile_index + 1) hpos
  obtain ⟨hok, hidx, _⟩ := set_translation_profile_ok env profiles s
    ((s.current_profile_index + 1) % (profiles.length : Int)) h0 h1
  exact ⟨hok, hidx⟩

/-- previous_profile always succeeds on a nonempty profile list and moves the
index to (current - 1) mod N (Python modulo: nonnegative result). -/
theorem previous_profile_spec (env : ApiCall → Bool) (profiles : List Profile)
    (s : ClientState) (hN : 0 < profiles.length) :
    (previous_profile env profiles s).ok = true ∧
    (previous_profile env profiles s).state.current_profile_index
      = (s.current_profile_index - 1) % (profiles.length : Int) := by
  have hNZ : ((profiles.length : Int)) ≠ 0 := by
    have : (0 : Int) < (profiles.length : Int) := by exact_mod_cast hN
    omega
  have hpos : (0 : Int) < (profiles.length : Int) := by exact_mod_cast hN
  have h0 := Int.emod_nonneg (s.current_profile_index - 1) hNZ
  have h1 := Int.emod_lt_of_pos (s.current_profile_index - 1) hpos
  obtain ⟨hok, hidx, _⟩ := set_translation_profile_ok env profiles s
    ((s.current_profile_index - 1) % (profiles.length : Int)) h0 h1
  exact ⟨hok, hidx⟩

/-- After n next_profile steps from an in-range index i, the index is
(i + n) mod N. -/
theorem iterate_next_index (env : ApiCall → Bool) (profiles : List Profile)
    (hN : 0 < profiles.length) :
    ∀ (n : Nat) (s : ClientState),
      0 ≤ s.current_profile_index →
      s.current_profile_index < (profiles.length : Int) →
      (iterate_next env profiles n s).current_profile_index
        = (s.current_profile_index + n) % (profiles.length : Int) := by
  have hNZ : ((profiles.length : Int)) ≠ 0 := by
    have : (0 : Int) < (profiles.length : Int) := by exact_mod_cast hN
    omega
  have hpos : (0 : Int) < (profiles.length : Int) := by exact_mod_cast hN
  intro n
  induction n with
  | zero =>
    intro s h0 h1
    show s.current_profile_index = _
    rw [Nat.cast_zero, Int.add_zero, Int.emod_eq_of_lt h0 h1]
  | succ n ih =>
    intro s h0 h1
    show (iterate_next env profiles n (next_profile env profiles s).state).current_profile_index = _
    have hidx := (next_profile_spec env profiles s hN).2
    have hb0 : 0 ≤ (next_profile env profiles s).state.current_profile_index := by
      rw [hidx]; exact Int.emod_nonneg _ hNZ
    have hb1 : (next_profile env profiles s).state.current_profile_index
        < (profiles.length : Int) := by
      rw [hidx]; exact Int.emod_lt_of_pos _ hpos
    rw [ih _ hb0 hb1, hidx, Int.emod_add_emod]
    congr 1
    push_cast
    ring

/-! ### Claim theorems for the session controller -/

/-- Claim C8: profile wraparound: on a nonempty profile list where every
operation succeeds, from index 0, next_profile called N times returns the
index to 0; one next_profile step computes (index + 1) mod N; and
previous_profile called once from index 0 succeeds and yields index N - 1. -/
theorem claim_C8_profile_wraparound (env : ApiCall → Bool)
    (profiles : List Profile) (s : ClientState)
    (hN : 0 < profiles.length) (h0 : s.current_profile_index = 0) :
    (iterate_next env profiles profiles.length s).current_profile_index = 0 ∧
    (next_profile env profiles s).ok = true ∧
    (next_profile env profiles s).state.current_profile_index
      = (s.current_profile_index + 1) % (profiles.length : Int) ∧
    (previous_profile env profiles s).ok = true ∧
    (previous_profile env profiles s).state.current_profile_index
      = (profiles.length : Int) - 1 := by
  have hpos : (0 : Int) < (profiles.length : Int) := by exact_mod_cast hN
  have hnext := next_profile_spec env profiles s hN
  have hprev := previous_profile_spec env profiles s hN
  refine ⟨?_, hnext.1, hnext.2, hprev.1, ?_⟩
  · rw [iterate_next_index env profiles hN profiles.length s (by omega) (by omega),
      h0, Int.zero_add, Int.emod_self]
  · rw [hprev.2, h0]
    have hrw : ((0 : Int) - 1) % (profiles.length : Int)
        = ((profiles.length : Int) - 1) % (profiles.length : Int) := by
      conv_rhs => rw [show (profiles.length : Int) - 1
        = (0 - 1) + (profiles.length : Int) * 1 by ring]
      rw [Int.add_mul_emod_self_left]
    rw [hrw, Int.emod_eq_of_lt (by omega) (by omega)]

/-- Witness for C8 with two profiles: two next steps return to 0, one
previous step from 0 lands on 1. -/
theorem claim_C8_witness :
    0 < [profJaEn, profJaZh].length ∧
    initClient.current_profile_index = 0 ∧
    ((iterate_next envAllFail [profJaEn, profJaZh] [profJaEn, profJaZh].length
        initClient).current_profile_index = 0 ∧
      (next_profile envAllFail [profJaEn, profJaZh] initClient).ok = true ∧
      (next_profile envAllFail [profJaEn, profJaZh] initClient).state.current_profile_index
        = (initClient.current_profile_index + 1) % (([profJaEn, profJaZh].length : Int)) ∧
      (previous_profile envAllFail [profJaEn, profJaZh] initClient).ok = true ∧
      (previous_profile envAllFail [profJaEn, profJaZh] initClient).state.current_profile_index
        = (([profJaEn, profJaZh].length : Int)) - 1) :=
  ⟨by decide, rfl,
   claim_C8_profile_wraparound envAllFail [profJaEn, profJaZh] initClient
     (by decide) rfl⟩

/-- Claim C2 (evaluation at the failing input): in an environment where
every control call fails (requests raises, _call_api returns False),
set_translation_profile still returns True and installs the new
current_profile_index, and set_mute still returns True and flips is_muted:
the failed mutation is applied, not rejected. The conjuncts about calls show
which control calls were issued and that the environment fails them. -/
theorem claim_C2_failed_call_still_mutates :
    (set_translation_profile envAllFail [profJaEn, profJaZh]
        ⟨0, true, some "ja"⟩ 1).ok = true ∧
    (set_translation_profile envAllFail [profJaEn, profJaZh]
        ⟨0, true, some "ja"⟩ 1).state.current_profile_index = 1 ∧
    (set_translation_profile envAllFail [profJaEn, profJaZh]
        ⟨0, true, some "ja"⟩ 1).calls
      = [ApiCall.setTranslationParam 1 "zh-CN" "google"] ∧
    envAllFail (ApiCall.setTranslationParam 1 "zh-CN" "google") = false ∧
    (set_mute envAllFail ⟨0, true, some "ja"⟩ false).ok = true ∧
    (set_mute envAllFail ⟨0, true, some "ja"⟩ false).state.is_muted = false ∧
    (set_mute envAllFail ⟨0, true, some "ja"⟩ false).calls = [ApiCall.muteOff] ∧
    envAllFail ApiCall.muteOff = false := by
  decide

/-- Claim C7 (evaluation at the failing input): from a fresh session, in an
environment where every control call fails, set_translation_profile issues
the recognition-language call, the call fails, and last_recognition_language
is updated to the new language anyway — it is not guarded by the call's
success. (The index-range half of the claim does hold; see
set_translation_profile_ok, next_profile_spec and previous_profile_spec.) -/
theorem claim_C7_recognition_language_updated_despite_failure :
    (set_translation_profile envAllFail [profJaEn] initClient 0).state.last_recognition_language
      = some "ja" ∧
    (set_translation_profile envAllFail [profJaEn] initClient 0).calls
      = [ApiCall.setRecognitionParam (some "ja"),
         ApiCall.setTranslationParam 1 "en-US" "google"] ∧
    envAllFail (ApiCall.setRecognitionParam (some "ja")) = false ∧
    (set_translation_profile envAllFail [profJaEn] initClient 0).ok = true := by
  decide

/-- Claim C9: key routing: play/pause performs exactly toggle_mute; next
performs next_profile (which succeeds on a nonempty profile list), then —
the success branch — set_mute(False); previous likewise; and for each of the
three key events the controller's own status-change observer fires exactly
once. -/
theorem claim_C9_key_routing (env : ApiCall → Bool) (profiles : List Profile)
    (s : ClientState) (hN : 0 < profiles.length) :
    (on_key_press env profiles s .play_pause).state = (toggle_mute env s).state ∧
    (on_key_press env profiles s .play_pause).state.is_muted = !s.is_muted ∧
    (next_profile env profiles s).ok = true ∧
    (on_key_press env profiles s .next).state
      = (set_mute env (next_profile env profiles s).state false).state ∧
    (on_key_press env profiles s .next).state.is_muted = false ∧
    (previous_profile env profiles s).ok = true ∧
    (on_key_press env profiles s .previous).state
      = (set_mute env (previous_profile env profiles s).state false).state ∧
    (on_key_press env profiles s .previous).state.is_muted = false ∧
    (on_key_press env profiles s .play_pause).ctrlStatusEvents = 1 ∧
    (on_key_press env profiles s .next).ctrlStatusEvents = 1 ∧
    (on_key_press env profiles s .previous).ctrlStatusEvents = 1 := by
  have hn := next_profile_spec env profiles s hN
  have hp := previous_profile_spec env profiles s hN
  refine ⟨rfl, rfl, hn.1, ?_, ?_, hp.1, ?_, ?_, rfl, ?_, ?_⟩ <;>
    simp only [on_key_press, handle_next, handle_previous, hn.1, hp.1, if_true] <;>
    rfl

/-- Witness for C9 with two profiles and a failing-call environment. -/
theorem claim_C9_witness :
    0 < [profJaEn, profJaZh].length ∧
    ((on_key_press envAllFail [profJaEn, profJaZh] initClient .play_pause).state
        = (toggle_mute envAllFail initClient).state ∧
      (on_key_press envAllFail [profJaEn, profJaZh] initClient .play_pause).state.is_muted
        = !initClient.is_muted ∧
      (next_profile envAllFail [profJaEn, profJaZh] initClient).ok = true ∧
      (on_key_press envAllFail [profJaEn, profJaZh] initClient .next).state
        = (set_mute envAllFail
            (next_profile envAllFail [profJaEn, profJaZh] initClient).state false).state ∧
      (on_key_press envAllFail [profJaEn, profJaZh] initClient .next).state.is_muted = false ∧
      (previous_profile envAllFail [profJaEn, profJaZh] initClient).ok = true ∧
      (on_key_press envAllFail [profJaEn, profJaZh] initClient .previous).state
        = (set_mute envAllFail
            (previous_profile envAllFail [profJaEn, profJaZh] initClient).state false).state ∧
      (on_key_press envAllFail [profJaEn, profJaZh] initClient .previous).state.is_muted = false ∧
      (on_key_press envAllFail [profJaEn, profJaZh] initClient .play_pause).ctrlStatusEvents = 1 ∧
      (on_key_press envAllFail [profJaEn, profJaZh] initClient .next).ctrlStatusEvents = 1 ∧
      (on_key_press envAllFail [profJaEn, profJaZh] initClient .previous).ctrlStatusEvents = 1) :=
  ⟨by decide,
   claim_C9_key_routing envAllFail [profJaEn, profJaZh] initClient (by decide)⟩

/-! ### Backoff delays -/

/-- The delays slept over consecutive failed cycles starting from counter a:
min(b * 2 ^ (a + j), m) for j = 0, 1, ... -/
theorem ws_connect_loop_delays_replicate (b m : ℚ) :
    ∀ (n a : Nat), ws_connect_loop_delays b m a (List.replicate n false)
      = (List.range n).map (fun j => backoff_delay b m (a + j)) := by
  intro n
  induction n with
  | zero => intro a; rfl
  | succ n ih =>
    intro a
    rw [List.replicate_succ]
    show backoff_delay b m a
        :: ws_connect_loop_delays b m (a + 1) (List.replicate n false) = _
    rw [ih (a + 1), List.range_succ_eq_map, List.map_cons, List.map_map]
    refine congrArg₂ List.cons (by rw [Nat.add_zero]) ?_
    refine List.map_congr_left ?_
    intro j _
    show backoff_delay b m (a + 1 + j) = backoff_delay b m (a + (j + 1))
    congr 1
    omega

/-- Claim C5 counterexample: with base delay 3 and max delay 60, after one
connect failure from a fresh client (attempts counter 0, no intervening
success) the loop sleeps 3 seconds, not min(3 * 2 ^ 1, 60) = 6 as the
claim's formula with n = 1 failures would require. -/
theorem claim_C5_counterexample :
    ws_connect_loop_delays 3 60 0 [false] = [3] ∧
    min ((3 : ℚ) * 2 ^ 1) 60 = 6 ∧ ((3 : ℚ) ≠ 6) := by
  refine ⟨?_, ?_, by norm_num⟩
  · show [backoff_delay 3 60 0] = [3]
    rw [backoff_delay, min_def]
    norm_num
  · rw [min_def]
    norm_num

/-- Claim C5 (amended): after n + 1 consecutive connect failures with no
intervening success the delays slept are min(b * 2 ^ j, m) for
j = 0, ..., n — the sequence d, 2d, 4d, ... capped at the maximum, so the
sleep before the next attempt is min(b * 2 ^ n, m); and the attempts counter
resets to 0 only on a successful connect, so whatever the counter was, one
cycle whose connect succeeded restarts the sequence at min(b, m) = d. -/
theorem claim_C5_backoff_monotonic_capped (b m : ℚ) (n k a : Nat) :
    ws_connect_loop_delays b m 0 (List.replicate (n + 1) false)
      = (List.range (n + 1)).map (fun j => min (b * 2 ^ j) m) ∧
    (ws_connect_loop_delays b m 0 (List.replicate (n + 1) false)).getLast?
      = some (min (b * 2 ^ n) m) ∧
    ws_connect_loop_delays b m a (true :: List.replicate k false)
      = (List.range (k + 1)).map (fun j => min (b * 2 ^ j) m) := by
  have hfull : ∀ i : Nat, ws_connect_loop_delays b m 0 (List.replicate (i + 1) false)
      = (List.range (i + 1)).map (fun j => min (b * 2 ^ j) m) := by
    intro i
    rw [ws_connect_loop_delays_replicate b m (i + 1) 0]
    refine List.map_congr_left ?_
    intro j _
    show backoff_delay b m (0 + j) = _
    rw [Nat.zero_add, backoff_delay]
  refine ⟨hfull n, ?_, ?_⟩
  · rw [hfull n]
    rw [List.getLast?_eq_getElem?]
    simp [List.getElem?_map]
  · show backoff_delay b m 0
        :: ws_connect_loop_delays b m (0 + 1) (List.replicate k false) = _
    rw [Nat.zero_add, ws_connect_loop_delays_replicate b m k 1,
      List.range_succ_eq_map, List.map_cons, List.map_map]
    refine congrArg₂ List.cons ?_ ?_
    · rw [backoff_delay, pow_zero]
    · refine List.map_congr_left ?_
      intro j _
      show backoff_delay b m (1 + j) = min (b * 2 ^ (j + 1)) m
      rw [backoff_delay, Nat.add_comm 1 j]

end Bridge
